import Mathlib

/-!
Verification development for the `ruspiro-lock` crate: blocking synchronization
primitives (`sync::Mutex`, `sync::RWLock`, `sync::Semaphore`) and the async lock
adapters layered above them (`AsyncMutex`, `AsyncRWLock`, `AsyncSemaphore`).

The Rust sources are embedded shallowly: each atomic field becomes an explicit
state component (`AtomicBool` as `Bool`, `AtomicU32` as a `Nat` reduced modulo
`2 ^ 32`), each operation becomes a pure state-transformer returning its result
together with the successor state, and the waiter registry (`BTreeMap<usize,
Waker>`) becomes an association list kept strictly sorted by key, which is the
iteration/minimum order the `BTreeMap` provides.  Rust `Drop` semantics are
modelled explicitly: the `Drop::drop` body runs first, then the fields are
dropped in declaration order.
-/

namespace RuspiroLock

/-- Modulus of the 32-bit unsigned counters (`AtomicU32`). -/
def U32_MOD : Nat := 2 ^ 32

/-- Modulus of the pointer-sized unsigned counters (`usize` on the crate's
64-bit targets): arithmetic on them wraps at `2 ^ 64`. -/
def USIZE_MOD : Nat := 2 ^ 64

/-! ## `sync::Mutex` (src/sync/mutex.rs)

Only the lock flag matters for the claims; the guarded payload `data:
UnsafeCell<T>` is not part of the lock-state model. -/

/-- State of a `sync::Mutex<T>`: the `locked: AtomicBool` field. -/
structure Mutex where
  locked : Bool
deriving DecidableEq, Repr

/-- Embedding of `Mutex::try_lock`: `self.locked.swap(true, Acquire)` sets the
flag and a `MutexGuard` is produced exactly when the previous value was
`false`.  Returns the optional guard (as `Option Unit`) and the new state. -/
def Mutex.try_lock (m : Mutex) : Option Unit × Mutex :=
  if m.locked then (none, { locked := true }) else (some (), { locked := true })

/-- Embedding of `Drop for MutexGuard`: `self._data.locked.swap(false, Release)`. -/
def MutexGuard.drop (_m : Mutex) : Mutex :=
  { locked := false }

/-! ## `sync::RWLock` (src/sync/rwlock.rs) -/

/-- State of a `sync::RWLock<T>`: the `write_lock: AtomicBool` flag and the
`read_locks: AtomicU32` counter (a `Nat` held below `2 ^ 32`). -/
structure RWLock where
  write_lock : Bool
  read_locks : Nat
deriving DecidableEq, Repr

/-- Embedding of `RWLock::try_write` (the non-blocking write acquisition; in
the async module the call site still uses its pre-rename name `try_lock`):
if `read_locks > 0` the request is refused with the state untouched; otherwise
`write_lock.swap(true, Acquire)` runs and a `WriteLockGuard` is produced
exactly when the previous flag was `false`. -/
def RWLock.try_write (s : RWLock) : Option Unit × RWLock :=
  if s.read_locks > 0 then (none, s)
  else if s.write_lock then (none, { s with write_lock := true })
  else (some (), { s with write_lock := true })

/-- Embedding of `RWLock::try_read`: refused while `write_lock` is set,
otherwise `read_locks.fetch_add(1, Acquire)` (wrapping on `u32`) and a
`ReadLockGuard` is produced. -/
def RWLock.try_read (s : RWLock) : Option Unit × RWLock :=
  if s.write_lock then (none, s)
  else (some (), { s with read_locks := (s.read_locks + 1) % U32_MOD })

/-- Embedding of `Drop for WriteLockGuard`: `write_lock.store(false, Release)`. -/
def WriteLockGuard.drop (s : RWLock) : RWLock :=
  { s with write_lock := false }

/-- Embedding of `Drop for ReadLockGuard`: `read_locks.fetch_sub(1, Release)`,
which wraps on `u32` (adding `2 ^ 32 - 1` modulo `2 ^ 32`). -/
def ReadLockGuard.drop (s : RWLock) : RWLock :=
  { s with read_locks := (s.read_locks + (U32_MOD - 1)) % U32_MOD }

/-! ## `sync::Semaphore` (src/sync/semaphore.rs) -/

/-- Embedding of `Semaphore::up`: `count.fetch_add(1, AcqRel)` on the
`AtomicU32` counter, wrapping modulo `2 ^ 32`. -/
def Semaphore.up (count : Nat) : Nat :=
  (count + 1) % U32_MOD

/-- Embedding of `Semaphore::try_down`: load the counter; if it is positive,
store the decremented value and return `Ok(())`; otherwise store the loaded
value back unchanged (the "dummy" store clearing the atomic monitor) and
return `Err(())`.  Returns the `Result` and the new counter value. -/
def Semaphore.try_down (count : Nat) : Except Unit Unit × Nat :=
  if count > 0 then (Except.ok (), count - 1) else (Except.error (), count)

example : Mutex.try_lock { locked := false } = (some (), { locked := true }) := by decide
example : Mutex.try_lock { locked := true } = (none, { locked := true }) := by decide
example : (RWLock.try_write { write_lock := false, read_locks := 1 }).1 = none := by decide
example : (RWLock.try_write { write_lock := false, read_locks := 0 }).1 = some () := by decide
example : (RWLock.try_read { write_lock := false, read_locks := 3 }).2.read_locks = 4 := by
  simp [RWLock.try_read, U32_MOD]
example : Semaphore.try_down 0 = (Except.error (), 0) := rfl
example : Semaphore.try_down 2 = (Except.ok (), 1) := rfl
example : Semaphore.up 5 = 6 := by simp [Semaphore.up, U32_MOD]

/-! ## The waiter registry (`BTreeMap<usize, Waker>`)

The three async adapters each keep a `BTreeMap<usize, Waker>` of pending
waiters plus a `next_waiter: usize` allocator (`AsyncMutexInner`,
`AsyncRWLockInner`, `AsyncSemaphoreInner` in the sources are structurally
identical).  The map is embedded as an association list strictly sorted by
key; `W` abstracts the opaque `Waker` handles. -/

/-- Membership insert matching `BTreeMap::insert`: places the binding at its
sorted position, replacing an existing binding for the same key. -/
def insertWaiter {W : Type} (id : Nat) (wk : W) : List (Nat × W) → List (Nat × W)
  | [] => [(id, wk)]
  | (k, v) :: rest =>
    if id < k then (id, wk) :: (k, v) :: rest
    else if id = k then (id, wk) :: rest
    else (k, v) :: insertWaiter id wk rest

/-- Lookup matching `BTreeMap::get`: the binding stored for `id`, if any. -/
def lookupWaiter {W : Type} (id : Nat) : List (Nat × W) → Option W
  | [] => none
  | (k, v) :: rest => if k = id then some v else lookupWaiter id rest

/-- Well-formedness of the embedded map: keys strictly increase along the
list, which is exactly the order `BTreeMap` iterates in. -/
def WaiterSorted {W : Type} (l : List (Nat × W)) : Prop :=
  List.Pairwise (fun a b => a.1 < b.1) l

/-- Shared registry state of the async adapters; embeds the structurally
identical `AsyncMutexInner`, `AsyncRWLockInner` and `AsyncSemaphoreInner`
(fields `waiter: BTreeMap<usize, Waker>` and `next_waiter: usize`). -/
structure AsyncInner (W : Type) where
  waiter : List (Nat × W)
  next_waiter : Nat
deriving DecidableEq, Repr

/-- Embedding of the release-side registry step shared by every guard `Drop`
body and by `AsyncSemaphore::up`: `if let Some(&id) = inner.waiter.keys().next()
{ let waiter = inner.waiter.remove(&id).unwrap(); waiter.wake(); }` — on the
sorted list, `keys().next()` is the head.  Returns the new registry state and
the removed binding whose wake handle gets invoked, if any. -/
def wakeMin {W : Type} (inner : AsyncInner W) : AsyncInner W × Option (Nat × W) :=
  match inner.waiter with
  | [] => (inner, none)
  | (k, wk) :: rest => ({ inner with waiter := rest }, some (k, wk))

/-- Embedding of the slow-path waiter-id allocation shared by
`AsyncMutex::lock`, `AsyncRWLock::lock`, `AsyncRWLock::read` and
`AsyncSemaphore::down`: `let current_id = inner.next_waiter;
inner.next_waiter += 1;` under the short `inner` lock.  `next_waiter` is a
`usize`, so the increment wraps modulo `2 ^ 64` (release-build semantics of
`usize` addition). -/
def allocWaiter {W : Type} (inner : AsyncInner W) : Nat × AsyncInner W :=
  (inner.next_waiter, { inner with next_waiter := (inner.next_waiter + 1) % USIZE_MOD })

/-! ## Async guard destruction

Rust runs the `Drop::drop` body first and only afterwards drops the struct
fields in declaration order.  Every async guard is declared as `{ guard:
<blocking guard>, inner: Arc<Mutex<..Inner>> }`, and its `Drop` body performs
the registry wake; hence the observable event order on destruction is: wake
the smallest registered waiter (if any), then release the underlying blocking
primitive (when the `guard` field is dropped).  `DropEvent` records that
order. -/

/-- Observable events during an async guard destruction. -/
inductive DropEvent (W : Type)
  | wake (id : Nat) (wk : W)
  | release
deriving DecidableEq, Repr

/-- Event list contributed by the `Drop` body's registry step followed by the
release of the blocking primitive. -/
def dropEvents {W : Type} (woken : Option (Nat × W)) : List (DropEvent W) :=
  match woken with
  | none => [DropEvent.release]
  | some (k, wk) => [DropEvent.wake k wk, DropEvent.release]

/-- Embedding of destroying an `AsyncMutexGuard`: the `Drop` body wakes the
smallest registered waiter, then the `guard: MutexGuard` field drops and
releases the blocking mutex.  Returns the new registry state, the new mutex
state, and the events in execution order. -/
def AsyncMutexGuard.drop {W : Type} (inner : AsyncInner W) (m : Mutex) :
    AsyncInner W × Mutex × List (DropEvent W) :=
  let step := wakeMin inner
  (step.1, MutexGuard.drop m, dropEvents step.2)

/-- Embedding of destroying an `AsyncWriteLockGuard`: `Drop` body wakes the
smallest registered waiter, then the `guard: WriteLockGuard` field drops. -/
def AsyncWriteLockGuard.drop {W : Type} (inner : AsyncInner W) (s : RWLock) :
    AsyncInner W × RWLock × List (DropEvent W) :=
  let step := wakeMin inner
  (step.1, WriteLockGuard.drop s, dropEvents step.2)

/-- Embedding of destroying an `AsyncReadLockGuard`: `Drop` body wakes the
smallest registered waiter, then the `guard: ReadLockGuard` field drops. -/
def AsyncReadLockGuard.drop {W : Type} (inner : AsyncInner W) (s : RWLock) :
    AsyncInner W × RWLock × List (DropEvent W) :=
  let step := wakeMin inner
  (step.1, ReadLockGuard.drop s, dropEvents step.2)

/-- Ids of the wake events of an event list, in order. -/
def wakeIds {W : Type} (evs : List (DropEvent W)) : List Nat :=
  evs.filterMap fun e =>
    match e with
    | DropEvent.wake k _ => some k
    | DropEvent.release => none

/-- Events of `n` successive `AsyncMutexGuard` destructions (each guard drop
re-acquired in between is irrelevant to the registry, which only the drops
touch), concatenated in order. -/
def dropsEvents {W : Type} (inner : AsyncInner W) (m : Mutex) : Nat → List (DropEvent W)
  | 0 => []
  | n + 1 =>
    let step := AsyncMutexGuard.drop inner m
    step.2.2 ++ dropsEvents step.1 step.2.1 n

/-! ## Future polling and cancellation -/

/-- Embedding of `AsyncMutexFuture::poll`: first retry the fast path
`data.try_lock()`; on success return `Poll::Ready` with the guard, leaving the
registry untouched; on failure insert (overwrite) the current wake handle
under the future's id and return `Poll::Pending`.  The `Bool` result is
`true` for `Ready`. -/
def AsyncMutexFuture.poll {W : Type} (inner : AsyncInner W) (m : Mutex)
    (id : Nat) (wk : W) : AsyncInner W × Mutex × Bool :=
  match Mutex.try_lock m with
  | (some _, m') => (inner, m', true)
  | (none, m') => ({ inner with waiter := insertWaiter id wk inner.waiter }, m', false)

/-- Embedding of `AsyncWriteLockFuture::poll` (fast path: the lock's
non-blocking write acquisition, `RWLock::try_write`). -/
def AsyncWriteLockFuture.poll {W : Type} (inner : AsyncInner W) (s : RWLock)
    (id : Nat) (wk : W) : AsyncInner W × RWLock × Bool :=
  match RWLock.try_write s with
  | (some _, s') => (inner, s', true)
  | (none, s') => ({ inner with waiter := insertWaiter id wk inner.waiter }, s', false)

/-- Embedding of `AsyncReadLockFuture::poll` (fast path: `RWLock::try_read`). -/
def AsyncReadLockFuture.poll {W : Type} (inner : AsyncInner W) (s : RWLock)
    (id : Nat) (wk : W) : AsyncInner W × RWLock × Bool :=
  match RWLock.try_read s with
  | (some _, s') => (inner, s', true)
  | (none, s') => ({ inner with waiter := insertWaiter id wk inner.waiter }, s', false)

/-- Embedding of `AsyncSemaphoreFuture::poll` (fast path:
`Semaphore::try_down`; `Ready(())` carries no guard). -/
def AsyncSemaphoreFuture.poll {W : Type} (inner : AsyncInner W) (count : Nat)
    (id : Nat) (wk : W) : AsyncInner W × Nat × Bool :=
  match Semaphore.try_down count with
  | (Except.ok _, c') => (inner, c', true)
  | (Except.error _, c') => ({ inner with waiter := insertWaiter id wk inner.waiter }, c', false)

/-- Embedding of dropping a pending acquire future (cancellation).  None of
`AsyncMutexFuture`, `AsyncWriteLockFuture`, `AsyncReadLockFuture`,
`AsyncSemaphoreFuture` implements `Drop`, so cancellation leaves the registry
— including the cancelled future's own waiter entry — untouched. -/
def AsyncFuture.cancel {W : Type} (inner : AsyncInner W) : AsyncInner W :=
  inner

/-- Embedding of `AsyncSemaphore::up`: `self.sema.up()` first (the wrapping
`u32` increment), then the registry wake step removing and waking the
smallest registered waiter, if any. -/
def AsyncSemaphore.up {W : Type} (inner : AsyncInner W) (count : Nat) :
    AsyncInner W × Nat × Option (Nat × W) :=
  let count' := Semaphore.up count
  let step := wakeMin inner
  (step.1, count', step.2)

example : AsyncMutexGuard.drop (W := Nat) ⟨[(0, 7)], 1⟩ { locked := true } =
    (⟨[], 1⟩, { locked := false }, [DropEvent.wake 0 7, DropEvent.release]) := by decide
example : AsyncMutexGuard.drop (W := Nat) ⟨[], 4⟩ { locked := true } =
    (⟨[], 4⟩, { locked := false }, [DropEvent.release]) := by decide
example : AsyncMutexFuture.poll (W := Nat) ⟨[(1, 5)], 2⟩ { locked := false } 1 9 =
    (⟨[(1, 5)], 2⟩, { locked := true }, true) := by decide
example : AsyncMutexFuture.poll (W := Nat) ⟨[(1, 5)], 2⟩ { locked := true } 1 9 =
    (⟨[(1, 9)], 2⟩, { locked := true }, false) := by decide
example : AsyncSemaphore.up (W := Nat) ⟨[(2, 5), (4, 6)], 7⟩ 0 =
    (⟨[(4, 6)], 7⟩, 1, some (2, 5)) := by
  simp [AsyncSemaphore.up, Semaphore.up, wakeMin, U32_MOD]

/-! ## Operation traces on one adapter

The mutual-exclusion claims quantify over sequences of operations.  The world
states pair the primitive's state with ghost counters of the RAII guards
currently outstanding; a guard can only be dropped while one is outstanding,
so the drop operations are no-ops when the ghost count is zero. -/

/-- Operations available on one `Mutex` adapter. -/
inductive MutexOp
  | try_lock
  | drop_guard
deriving DecidableEq, Repr

/-- World state of one `Mutex` adapter: lock state plus the number of
outstanding `MutexGuard`s. -/
structure MutexWorld where
  mutex : Mutex
  guards : Nat
deriving DecidableEq, Repr

/-- One operation step on a `Mutex` adapter. -/
def MutexWorld.step (w : MutexWorld) : MutexOp → MutexWorld
  | MutexOp.try_lock =>
    match Mutex.try_lock w.mutex with
    | (some _, m') => { mutex := m', guards := w.guards + 1 }
    | (none, m') => { mutex := m', guards := w.guards }
  | MutexOp.drop_guard =>
    if w.guards = 0 then w
    else { mutex := MutexGuard.drop w.mutex, guards := w.guards - 1 }

/-- Initial world of `Mutex::new`: unlocked, no guards. -/
def MutexWorld.init : MutexWorld :=
  { mutex := { locked := false }, guards := 0 }

/-- Run a sequence of operations from the initial world. -/
def MutexWorld.run (ops : List MutexOp) : MutexWorld :=
  ops.foldl MutexWorld.step MutexWorld.init

/-- Operations available on one `RWLock` adapter. -/
inductive RWOp
  | try_write
  | try_read
  | drop_write
  | drop_read
deriving DecidableEq, Repr

/-- World state of one `RWLock` adapter: lock state plus the numbers of
outstanding `WriteLockGuard`s and `ReadLockGuard`s. -/
structure RWWorld where
  lock : RWLock
  wguards : Nat
  rguards : Nat
deriving DecidableEq, Repr

/-- One operation step on an `RWLock` adapter. -/
def RWWorld.step (w : RWWorld) : RWOp → RWWorld
  | RWOp.try_write =>
    match RWLock.try_write w.lock with
    | (some _, s') => { w with lock := s', wguards := w.wguards + 1 }
    | (none, s') => { w with lock := s' }
  | RWOp.try_read =>
    match RWLock.try_read w.lock with
    | (some _, s') => { w with lock := s', rguards := w.rguards + 1 }
    | (none, s') => { w with lock := s' }
  | RWOp.drop_write =>
    if w.wguards = 0 then w
    else { w with lock := WriteLockGuard.drop w.lock, wguards := w.wguards - 1 }
  | RWOp.drop_read =>
    if w.rguards = 0 then w
    else { w with lock := ReadLockGuard.drop w.lock, rguards := w.rguards - 1 }

/-- Initial world of `RWLock::new`: no writer flag, zero readers, no guards. -/
def RWWorld.init : RWWorld :=
  { lock := { write_lock := false, read_locks := 0 }, wguards := 0, rguards := 0 }

/-- Run a sequence of operations from the initial world. -/
def RWWorld.run (ops : List RWOp) : RWWorld :=
  ops.foldl RWWorld.step RWWorld.init

/-! ## Waiter-id allocation runs (all adapters)

`AsyncRWLock::lock` and `AsyncRWLock::read` both allocate from the one
`next_waiter` counter of the shared `AsyncRWLockInner`; the request kind does
not influence the allocation. -/

/-- Kind of a slow-path acquisition request on the `AsyncRWLock` (for the
other adapters every request has a single kind). -/
inductive ReqKind
  | write
  | read
deriving DecidableEq, Repr

/-- Ids handed out by a sequence of slow-path acquisitions, every request —
read or write alike — running `allocWaiter` on the same registry. -/
def allocRun {W : Type} (inner : AsyncInner W) : List ReqKind → List Nat × AsyncInner W
  | [] => ([], inner)
  | _ :: rest =>
    let step := allocWaiter inner
    let next := allocRun step.2 rest
    (step.1 :: next.1, next.2)

/-! ## Iterated semaphore operations -/

/-- Result of `n` successive `Semaphore::try_down` calls: whether every call
returned `Ok`, and the final counter (stopping at the first failure). -/
def downs : Nat → Nat → Bool × Nat
  | 0, c => (true, c)
  | n + 1, c =>
    match Semaphore.try_down c with
    | (Except.ok _, c') => downs n c'
    | (Except.error _, c') => (false, c')

/-- Counter after `n` successive `Semaphore::up` calls. -/
def ups : Nat → Nat → Nat
  | 0, c => c
  | n + 1, c => ups n (Semaphore.up c)

example : MutexWorld.run [MutexOp.try_lock, MutexOp.try_lock] =
    { mutex := { locked := true }, guards := 1 } := by decide
example : (RWWorld.run [RWOp.try_read, RWOp.try_read]).rguards = 2 := by
  simp [RWWorld.run, RWWorld.init, RWWorld.step, RWLock.try_read, U32_MOD]
example : allocRun (W := Nat) ⟨[], 3⟩ [ReqKind.read, ReqKind.write, ReqKind.read] =
    ([3, 4, 5], ⟨[], 6⟩) := by
  simp [allocRun, allocWaiter, USIZE_MOD]
example : downs 2 5 = (true, 3) := rfl
example : downs 3 2 = (false, 0) := rfl
example : ups 2 3 = 5 := by simp [ups, Semaphore.up, U32_MOD]

/-! ## Helper lemmas -/

lemma u32_mod_pos : 0 < U32_MOD := by
  simp [U32_MOD]

lemma downs_ok {N c : Nat} (h : N ≤ c) : downs N c = (true, c - N) := by
  induction N generalizing c with
  | zero => simp [downs]
  | succ n ih =>
    have hc : 0 < c := lt_of_lt_of_le (Nat.succ_pos n) h
    have h' : n ≤ c - 1 := by omega
    simp only [downs, Semaphore.try_down, if_pos hc]
    rw [ih h']
    congr 1
    omega

lemma ups_no_wrap {N c : Nat} (h : c + N < U32_MOD) : ups N c = c + N := by
  induction N generalizing c with
  | zero => simp [ups]
  | succ n ih =>
    have h1 : c + 1 < U32_MOD := by omega
    simp only [ups, Semaphore.up]
    rw [Nat.mod_eq_of_lt h1, ih (by omega)]
    omega

/-! ## C4: RWLock fast-path gating -/

/-- C4.  The non-blocking write acquisition used by `AsyncRWLock::lock`
(`RWLock::try_write`) succeeds exactly when there are zero outstanding readers
(`read_locks = 0`) and zero outstanding writers (`write_lock = false`) — in
particular it reports not-ready whenever at least one read guard is
outstanding — and the non-blocking read acquisition used by
`AsyncRWLock::read` (`RWLock::try_read`) succeeds exactly when there are zero
outstanding writers, regardless of the number of outstanding readers; the
same characterization holds for the readiness of the corresponding poll fast
paths. -/
theorem rwlock_fastpath_gating :
    ∀ s : RWLock,
      ((RWLock.try_write s).1.isSome ↔ s.read_locks = 0 ∧ s.write_lock = false) ∧
      ((RWLock.try_read s).1.isSome ↔ s.write_lock = false) ∧
      ∀ (W : Type) (inner : AsyncInner W) (id : Nat) (wk : W),
        ((AsyncWriteLockFuture.poll inner s id wk).2.2 = true ↔
          s.read_locks = 0 ∧ s.write_lock = false) ∧
        ((AsyncReadLockFuture.poll inner s id wk).2.2 = true ↔ s.write_lock = false) := by
  intro s
  have hw : (RWLock.try_write s).1.isSome ↔ s.read_locks = 0 ∧ s.write_lock = false := by
    simp only [RWLock.try_write]
    split
    · simp
      omega
    · split <;> simp_all
  have hr : (RWLock.try_read s).1.isSome ↔ s.write_lock = false := by
    simp only [RWLock.try_read]
    split <;> simp_all
  refine ⟨hw, hr, fun W inner id wk => ⟨?_, ?_⟩⟩
  · rw [← hw]
    simp only [AsyncWriteLockFuture.poll]
    rcases h : RWLock.try_write s with ⟨o, s'⟩
    cases o <;> simp [h]
  · rw [← hr]
    simp only [AsyncReadLockFuture.poll]
    rcases h : RWLock.try_read s with ⟨o, s'⟩
    cases o <;> simp [h]

/-! ## C9: failure atomicity of try_down -/

/-- C9.  Whenever `Semaphore::try_down` is called with the counter equal to
zero, it returns `Err(())` and leaves the counter unchanged (the failure
branch stores back the loaded value). -/
theorem try_down_failure_atomic (c : Nat) (h : c = 0) :
    Semaphore.try_down c = (Except.error (), c) := by
  subst h
  rfl

/-- Witness for C9 at counter `0`. -/
theorem try_down_failure_atomic_witness :
    Semaphore.try_down 0 = (Except.error (), 0) :=
  try_down_failure_atomic 0 rfl

/-! ## C10: counter width bound -/

/-- C10.  The semaphore's permit counter is a 32-bit unsigned integer:
`Semaphore::up` at `2 ^ 32 - 1` wraps the counter to `0`, the increment being
modulo `2 ^ 32`; below the wrap it is a genuine increment by one. -/
theorem semaphore_up_wraps_u32 :
    Semaphore.up (U32_MOD - 1) = 0 ∧
    (∀ c : Nat, Semaphore.up c = (c + 1) % U32_MOD) ∧
    (∀ c : Nat, c + 1 < U32_MOD → Semaphore.up c = c + 1) := by
  refine ⟨?_, fun c => rfl, fun c hc => ?_⟩
  · have : U32_MOD - 1 + 1 = U32_MOD := by
      have := u32_mod_pos
      omega
    simp [Semaphore.up, this]
  · simp [Semaphore.up, Nat.mod_eq_of_lt hc]

/-- Witness for C10's no-wrap branch at counter `5`. -/
theorem semaphore_up_wraps_u32_witness : Semaphore.up 5 = 6 :=
  semaphore_up_wraps_u32.2.2 5 (by norm_num [U32_MOD])

/-! ## C8: semaphore round trip -/

/-- C8.  For every initial permit count `c < 2 ^ 32` and every `N ≤ c`,
performing `try_down` `N` times (each returning `Ok`) followed by `up` `N`
times restores the counter to exactly `c`; and a `down()` issued at counter
zero cannot resolve — `try_down` fails and leaves the counter at zero, so the
retry loop spins — until a matching `up()` makes the next `try_down`
succeed. -/
theorem semaphore_round_trip (c N : Nat) (hc : c < U32_MOD) (hN : N ≤ c) :
    downs N c = (true, c - N) ∧
    ups N (c - N) = c ∧
    Semaphore.try_down 0 = (Except.error (), 0) ∧
    Semaphore.try_down (Semaphore.up 0) = (Except.ok (), 0) := by
  refine ⟨downs_ok hN, ?_, rfl, ?_⟩
  · have h1 : c - N + N < U32_MOD := by omega
    rw [ups_no_wrap h1]
    omega
  · have h1 : (1 : Nat) < U32_MOD := by norm_num [U32_MOD]
    simp [Semaphore.up, Semaphore.try_down, Nat.mod_eq_of_lt h1]

/-- Witness for C8 at `c = 3`, `N = 2`. -/
theorem semaphore_round_trip_witness :
    downs 2 3 = (true, 3 - 2) ∧
    ups 2 (3 - 2) = 3 ∧
    Semaphore.try_down 0 = (Except.error (), 0) ∧
    Semaphore.try_down (Semaphore.up 0) = (Except.ok (), 0) :=
  semaphore_round_trip 3 2 (by norm_num [U32_MOD]) (by norm_num)

/-! ## C6: AsyncSemaphore::up never fails -/

lemma sorted_head_min {W : Type} {k : Nat} {wk : W} {rest : List (Nat × W)}
    (h : WaiterSorted ((k, wk) :: rest)) : ∀ p ∈ (k, wk) :: rest, k ≤ p.1 := by
  intro p hp
  rcases List.mem_cons.mp hp with h1 | h1
  · subst h1
    exact le_refl _
  · exact le_of_lt ((List.pairwise_cons.mp h).1 p h1)

/-- C6.  Every call to `AsyncSemaphore::up` increments the counting primitive
(modulo the `u32` width, a genuine increment below the wrap) and then, if the
waiter map is non-empty, removes the smallest-id entry and invokes its wake
handle — exactly one waiter per call; if the map is empty the increment still
happens and no wake occurs.  The call is total and never fails. -/
theorem async_semaphore_up_wakes_min :
    ∀ (W : Type) (inner : AsyncInner W) (count : Nat),
      (AsyncSemaphore.up inner count).2.1 = (count + 1) % U32_MOD ∧
      (inner.waiter = [] →
        (AsyncSemaphore.up inner count).2.2 = none ∧
        (AsyncSemaphore.up inner count).1 = inner) ∧
      ∀ (k : Nat) (wk : W) (rest : List (Nat × W)), inner.waiter = (k, wk) :: rest →
        (AsyncSemaphore.up inner count).2.2 = some (k, wk) ∧
        (AsyncSemaphore.up inner count).1 = { inner with waiter := rest } ∧
        (WaiterSorted inner.waiter → ∀ p ∈ inner.waiter, k ≤ p.1) := by
  intro W inner count
  rcases inner with ⟨wl, nw⟩
  cases wl with
  | nil =>
    refine ⟨rfl, fun _ => ⟨rfl, rfl⟩, fun k wk rest hw => ?_⟩
    simp at hw
  | cons hd tl =>
    rcases hd with ⟨k0, wk0⟩
    refine ⟨rfl, fun hw => by simp at hw, fun k wk rest hw => ?_⟩
    change (k0, wk0) :: tl = (k, wk) :: rest at hw
    injection hw with hhd htl
    injection hhd with hk hwk
    subst hk
    subst hwk
    subst htl
    exact ⟨rfl, rfl, fun hs => sorted_head_min hs⟩

/-- Witness for C6: concrete semaphore with waiters `{2 ↦ 5, 4 ↦ 6}` and
counter `0`. -/
theorem async_semaphore_up_wakes_min_witness :
    (AsyncSemaphore.up (W := Nat) ⟨[(2, 5), (4, 6)], 7⟩ 0).2.2 = some (2, 5) ∧
    (AsyncSemaphore.up (W := Nat) ⟨[(2, 5), (4, 6)], 7⟩ 0).1 = ⟨[(4, 6)], 7⟩ ∧
    (AsyncSemaphore.up (W := Nat) ⟨[(2, 5), (4, 6)], 7⟩ 0).2.1 = 1 := by
  have h := async_semaphore_up_wakes_min Nat ⟨[(2, 5), (4, 6)], 7⟩ 0
  obtain ⟨hc, -, hm⟩ := h
  obtain ⟨h1, h2, -⟩ := hm 2 5 [(4, 6)] rfl
  refine ⟨h1, h2, ?_⟩
  rw [hc]
  norm_num [U32_MOD]

/-! ## C7: waiter id allocation

`next_waiter` is a `usize`: the stored counter wraps modulo `2 ^ 64`, so
after `2 ^ 64` allocations the handed-out ids repeat.  The bounded statement
below covers every run that allocates while the counter stays below the
wrap; the counterexample exhibits the reuse at exactly the wrap. -/

lemma usize_mod_pos : 0 < USIZE_MOD := by
  simp [USIZE_MOD]

lemma allocRun_append {W : Type} :
    ∀ (l1 l2 : List ReqKind) (inner : AsyncInner W),
      allocRun inner (l1 ++ l2) =
        ((allocRun inner l1).1 ++ (allocRun (allocRun inner l1).2 l2).1,
          (allocRun (allocRun inner l1).2 l2).2) := by
  intro l1
  induction l1 with
  | nil => intro l2 inner; simp [allocRun]
  | cons r rest ih =>
    intro l2 inner
    simp only [List.cons_append, allocRun, List.append_eq]
    rw [ih l2 (allocWaiter inner).2]

lemma allocRun_bounded_spec {W : Type} :
    ∀ (reqs : List ReqKind) (inner : AsyncInner W),
      inner.next_waiter + reqs.length < USIZE_MOD →
      (allocRun inner reqs).1 = List.range' inner.next_waiter reqs.length ∧
      (allocRun inner reqs).2.next_waiter = inner.next_waiter + reqs.length ∧
      (allocRun inner reqs).2.waiter = inner.waiter := by
  intro reqs
  induction reqs with
  | nil =>
    intro inner h
    simp [allocRun]
  | cons r rest ih =>
    intro inner h
    simp only [List.length_cons] at h
    have hlt : inner.next_waiter + 1 < USIZE_MOD := by omega
    obtain ⟨h1, h2, h3⟩ := ih ⟨inner.waiter, inner.next_waiter + 1⟩ (by dsimp only; omega)
    dsimp only at h1 h2 h3
    simp only [allocRun, allocWaiter, List.length_cons, List.range'_succ,
      Nat.mod_eq_of_lt hlt]
    refine ⟨by rw [h1], ?_, h3⟩
    rw [h2]
    show inner.next_waiter + 1 + rest.length = inner.next_waiter + (rest.length + 1)
    omega

/-- C7 counterexample: starting from a fresh registry, a run of `2 ^ 64 + 1`
slow-path requests wraps the `usize` counter: the id `0` handed to the first
request is handed out again by the last one, so the allocated ids are
neither strictly increasing nor pairwise distinct — refuting uniqueness and
strict increase "across the adapter's lifetime" without a bound. -/
theorem waiter_id_wrap_cex :
    ¬ List.Pairwise (· < ·)
        (allocRun (W := Unit) ⟨[], 0⟩
          (List.replicate (USIZE_MOD - 1) ReqKind.read ++ [ReqKind.read, ReqKind.read])).1 ∧
    ¬ (allocRun (W := Unit) ⟨[], 0⟩
        (List.replicate (USIZE_MOD - 1) ReqKind.read ++ [ReqKind.read, ReqKind.read])).1.Nodup := by
  have hM2 : 2 ≤ USIZE_MOD := by norm_num [USIZE_MOD]
  have hlen : (List.replicate (USIZE_MOD - 1) ReqKind.read).length = USIZE_MOD - 1 :=
    List.length_replicate _ _
  obtain ⟨h1, h2, -⟩ := allocRun_bounded_spec (W := Unit)
    (List.replicate (USIZE_MOD - 1) ReqKind.read) ⟨[], 0⟩
    (by
      rw [hlen]
      show 0 + (USIZE_MOD - 1) < USIZE_MOD
      omega)
  rw [hlen, show (⟨[], 0⟩ : AsyncInner Unit).next_waiter = 0 from rfl] at h1
  rw [hlen, show (⟨[], 0⟩ : AsyncInner Unit).next_waiter = 0 from rfl] at h2
  have htail : ∀ t : AsyncInner Unit,
      (allocRun t [ReqKind.read, ReqKind.read]).1 =
        [t.next_waiter, (t.next_waiter + 1) % USIZE_MOD] := by
    intro t
    simp [allocRun, allocWaiter]
  have happ1 : (allocRun (W := Unit) ⟨[], 0⟩
      (List.replicate (USIZE_MOD - 1) ReqKind.read ++ [ReqKind.read, ReqKind.read])).1 =
      (allocRun (W := Unit) ⟨[], 0⟩ (List.replicate (USIZE_MOD - 1) ReqKind.read)).1 ++
        (allocRun (W := Unit)
          (allocRun (W := Unit) ⟨[], 0⟩ (List.replicate (USIZE_MOD - 1) ReqKind.read)).2
          [ReqKind.read, ReqKind.read]).1 := by
    rw [allocRun_append]
  rw [happ1, htail, h1, h2]
  have hwrap : (0 + (USIZE_MOD - 1) + 1) % USIZE_MOD = 0 := by
    rw [show 0 + (USIZE_MOD - 1) + 1 = USIZE_MOD from by omega]
    exact Nat.mod_self _
  rw [hwrap]
  have hsplit : List.range' 0 (USIZE_MOD - 1) = 0 :: List.range' 1 (USIZE_MOD - 2) := by
    rw [show USIZE_MOD - 1 = USIZE_MOD - 2 + 1 from by omega, List.range'_succ]
  rw [hsplit, List.cons_append]
  have hmem : 0 ∈ List.range' 1 (USIZE_MOD - 2) ++ [0 + (USIZE_MOD - 1), 0] := by
    simp
  constructor
  · intro hp
    exact absurd ((List.pairwise_cons.mp hp).1 0 hmem) (lt_irrefl 0)
  · intro hn
    exact (List.nodup_cons.mp hn).1 hmem

/-- C7 (amended).  Every slow-path acquisition allocates the current
`next_waiter` value as its waiter id and stores back the incremented counter,
which, being a `usize`, wraps modulo `2 ^ 64`.  For every run along which the
counter stays below the wrap (counter + number of requests < `2 ^ 64` — any
realizable adapter lifetime), a run of `n` requests starting at counter `s`
hands out exactly the ids `s, s + 1, …, s + n - 1`, in order — pairwise
distinct and strictly increasing, every handed-out id below the counter
afterwards, so no id is handed out twice.  For the `AsyncRWLock`, read and
write requests draw from the same single sequence (the request kinds do not
influence the ids).  After `2 ^ 64` allocations the counter wraps and ids
repeat. -/
theorem waiter_id_allocation_bounded :
    ∀ (W : Type) (inner : AsyncInner W) (reqs : List ReqKind),
      inner.next_waiter + reqs.length < USIZE_MOD →
      (allocRun inner reqs).1 = List.range' inner.next_waiter reqs.length ∧
      (allocRun inner reqs).2.next_waiter = inner.next_waiter + reqs.length ∧
      (allocRun inner reqs).2.waiter = inner.waiter ∧
      List.Pairwise (· < ·) (allocRun inner reqs).1 ∧
      (allocRun inner reqs).1.Nodup ∧
      ∀ id ∈ (allocRun inner reqs).1, id < (allocRun inner reqs).2.next_waiter := by
  intro W inner reqs h
  obtain ⟨h1, h2, h3⟩ := allocRun_bounded_spec reqs inner h
  refine ⟨h1, h2, h3, ?_, ?_, ?_⟩
  · rw [h1]
    exact List.pairwise_lt_range' _ _
  · rw [h1]
    exact List.nodup_range' _ _
  · intro id hid
    rw [h1, List.mem_range'_1] at hid
    rw [h2]
    omega

/-- Witness for C7: three mixed read/write requests starting at counter `3`
receive ids `3, 4, 5` — distinct and strictly increasing. -/
theorem waiter_id_allocation_bounded_witness :
    (allocRun (W := Nat) ⟨[], 3⟩ [ReqKind.read, ReqKind.write, ReqKind.read]).1 =
      List.range' 3 3 ∧
    (allocRun (W := Nat) ⟨[], 3⟩ [ReqKind.read, ReqKind.write, ReqKind.read]).2.next_waiter =
      3 + 3 ∧
    List.Pairwise (· < ·)
      (allocRun (W := Nat) ⟨[], 3⟩ [ReqKind.read, ReqKind.write, ReqKind.read]).1 ∧
    (allocRun (W := Nat) ⟨[], 3⟩ [ReqKind.read, ReqKind.write, ReqKind.read]).1.Nodup := by
  have h := waiter_id_allocation_bounded Nat ⟨[], 3⟩ [ReqKind.read, ReqKind.write, ReqKind.read]
    (by norm_num [USIZE_MOD])
  exact ⟨h.1, h.2.1, h.2.2.2.1, h.2.2.2.2.1⟩

/-! ## C2: release order and single wake

The `Drop` body of every async guard runs before the `guard` field holding
the blocking guard is dropped, so the wake of the smallest registered waiter
happens before — not after — the blocking primitive is released. -/

lemma wakeIds_dropsEvents {W : Type} :
    ∀ (n : Nat) (inner : AsyncInner W) (m : Mutex),
      wakeIds (dropsEvents inner m n) = (inner.waiter.map Prod.fst).take n := by
  intro n
  induction n with
  | zero => intro inner m; simp [dropsEvents, wakeIds]
  | succ k ih =>
    intro inner m
    rcases inner with ⟨wl, nw⟩
    cases wl with
    | nil =>
      simp [dropsEvents, AsyncMutexGuard.drop, wakeMin, dropEvents, wakeIds,
        List.filterMap_append] at ih ⊢
      simpa [wakeIds] using ih ⟨[], nw⟩ (MutexGuard.drop m)
    | cons hd tl =>
      rcases hd with ⟨k0, wk0⟩
      have := ih ⟨tl, nw⟩ (MutexGuard.drop m)
      simp only [dropsEvents, AsyncMutexGuard.drop, wakeMin, dropEvents, wakeIds,
        List.filterMap_append, List.map_cons, List.take_succ_cons] at this ⊢
      rw [this]
      rfl

/-- C2 counterexample: at the concrete state with one registered waiter
`0 ↦ 7` and the blocking mutex held, destroying the `AsyncMutexGuard` does
not produce the release event before the wake event (the actual order is
wake first, then release), refuting the claimed release-then-wake order. -/
theorem guard_drop_release_order_cex :
    ¬ (AsyncMutexGuard.drop (W := Nat) ⟨[(0, 7)], 1⟩ { locked := true }).2.2 =
        [DropEvent.release, DropEvent.wake 0 7] := by
  decide

/-- C2 (amended).  Whenever an async guard (`AsyncMutexGuard`,
`AsyncWriteLockGuard`, `AsyncReadLockGuard`) is destroyed, it removes exactly
the smallest registered waiter id (none when the map is empty), invokes that
waiter's wake handle exactly once, and only then — when the `guard` field is
dropped after the `Drop` body — releases the underlying blocking primitive;
consequently waiters registered with ids `w1 < w2 < w3` are selected for wake
in that order on successive releases. -/
theorem guard_drop_wake_then_release :
    ∀ (W : Type) (inner : AsyncInner W) (m : Mutex) (s : RWLock),
      (inner.waiter = [] →
        AsyncMutexGuard.drop inner m = (inner, { locked := false }, [DropEvent.release]) ∧
        AsyncWriteLockGuard.drop inner s = (inner, WriteLockGuard.drop s, [DropEvent.release]) ∧
        AsyncReadLockGuard.drop inner s = (inner, ReadLockGuard.drop s, [DropEvent.release])) ∧
      (∀ (k : Nat) (wk : W) (rest : List (Nat × W)), inner.waiter = (k, wk) :: rest →
        (AsyncMutexGuard.drop inner m =
            ({ inner with waiter := rest }, { locked := false },
              [DropEvent.wake k wk, DropEvent.release]) ∧
          AsyncWriteLockGuard.drop inner s =
            ({ inner with waiter := rest }, WriteLockGuard.drop s,
              [DropEvent.wake k wk, DropEvent.release]) ∧
          AsyncReadLockGuard.drop inner s =
            ({ inner with waiter := rest }, ReadLockGuard.drop s,
              [DropEvent.wake k wk, DropEvent.release])) ∧
        (WaiterSorted inner.waiter → ∀ p ∈ inner.waiter, k ≤ p.1)) ∧
      (WaiterSorted inner.waiter →
        ∀ n : Nat,
          wakeIds (dropsEvents inner m n) = (inner.waiter.map Prod.fst).take n ∧
          List.Pairwise (· < ·) (wakeIds (dropsEvents inner m n))) := by
  intro W inner m s
  have hC : WaiterSorted inner.waiter →
      ∀ n : Nat,
        wakeIds (dropsEvents inner m n) = (inner.waiter.map Prod.fst).take n ∧
        List.Pairwise (· < ·) (wakeIds (dropsEvents inner m n)) := by
    intro hs n
    have he := wakeIds_dropsEvents n inner m
    refine ⟨he, ?_⟩
    rw [he]
    have hmap : List.Pairwise (· < ·) (inner.waiter.map Prod.fst) :=
      hs.map Prod.fst (fun a b hab => hab)
    exact List.Pairwise.sublist (List.take_sublist n _) hmap
  rcases inner with ⟨wl, nw⟩
  cases wl with
  | nil =>
    refine ⟨fun _ => ⟨rfl, rfl, rfl⟩, fun k wk rest hw => ?_, hC⟩
    simp at hw
  | cons hd tl =>
    rcases hd with ⟨k0, wk0⟩
    refine ⟨fun hw => by simp at hw, fun k wk rest hw => ?_, hC⟩
    change (k0, wk0) :: tl = (k, wk) :: rest at hw
    injection hw with hhd htl
    injection hhd with hk hwk
    subst hk
    subst hwk
    subst htl
    exact ⟨⟨rfl, rfl, rfl⟩, fun hs => sorted_head_min hs⟩

/-- Witness for C2 applying the amended theorem to the registry
`{0 ↦ 7, 2 ↦ 9}`: the first destruction wakes waiter `0`, and two successive
destructions wake `0` then `2`, in increasing id order. -/
theorem guard_drop_wake_then_release_witness :
    AsyncMutexGuard.drop (W := Nat) ⟨[(0, 7), (2, 9)], 3⟩ { locked := true } =
      (⟨[(2, 9)], 3⟩, { locked := false }, [DropEvent.wake 0 7, DropEvent.release]) ∧
    wakeIds (dropsEvents (W := Nat) ⟨[(0, 7), (2, 9)], 3⟩ { locked := true } 2) = [0, 2] := by
  have h := guard_drop_wake_then_release Nat ⟨[(0, 7), (2, 9)], 3⟩ { locked := true }
    { write_lock := true, read_locks := 0 }
  obtain ⟨-, hB, hC⟩ := h
  obtain ⟨⟨h1, -, -⟩, -⟩ := hB 0 7 [(2, 9)] rfl
  obtain ⟨h2, -⟩ := hC (by unfold WaiterSorted; decide) 2
  refine ⟨h1, ?_⟩
  rw [h2]
  rfl

/-! ## C5: the poll contract -/

lemma lookupWaiter_insert_self {W : Type} (id : Nat) (wk : W) :
    ∀ l : List (Nat × W), lookupWaiter id (insertWaiter id wk l) = some wk := by
  intro l
  induction l with
  | nil => simp [insertWaiter, lookupWaiter]
  | cons hd tl ih =>
    rcases hd with ⟨k, v⟩
    simp only [insertWaiter]
    by_cases h1 : id < k
    · simp [h1, lookupWaiter]
    · by_cases h2 : id = k
      · simp [h1, h2, lookupWaiter]
      · simp only [if_neg h1, if_neg h2, lookupWaiter]
        rw [if_neg fun hk => h2 hk.symm]
        exact ih

lemma lookupWaiter_insert_ne {W : Type} (id j : Nat) (wk : W) (hj : j ≠ id) :
    ∀ l : List (Nat × W), lookupWaiter j (insertWaiter id wk l) = lookupWaiter j l := by
  intro l
  induction l with
  | nil =>
    simp only [insertWaiter, lookupWaiter]
    rw [if_neg fun hk => hj hk.symm]
  | cons hd tl ih =>
    rcases hd with ⟨k, v⟩
    simp only [insertWaiter]
    by_cases h1 : id < k
    · simp only [if_pos h1, lookupWaiter]
      rw [if_neg fun hk => hj hk.symm]
    · by_cases h2 : id = k
      · simp only [if_neg h1, if_pos h2, lookupWaiter]
        subst h2
        rw [if_neg fun hk => hj hk.symm, if_neg fun hk => hj hk.symm]
      · simp only [if_neg h1, if_neg h2, lookupWaiter]
        by_cases h3 : k = j
        · rw [if_pos h3, if_pos h3]
        · rw [if_neg h3, if_neg h3]
          exact ih

lemma mem_insertWaiter {W : Type} (id : Nat) (wk : W) :
    ∀ (l : List (Nat × W)) (p : Nat × W), p ∈ insertWaiter id wk l → p.1 = id ∨ p ∈ l := by
  intro l
  induction l with
  | nil =>
    intro p hp
    simp [insertWaiter] at hp
    subst hp
    exact Or.inl rfl
  | cons hd tl ih =>
    rcases hd with ⟨k, v⟩
    intro p hp
    simp only [insertWaiter] at hp
    by_cases h1 : id < k
    · rw [if_pos h1] at hp
      rcases List.mem_cons.mp hp with h | h
      · subst h; exact Or.inl rfl
      · exact Or.inr h
    · by_cases h2 : id = k
      · rw [if_neg h1, if_pos h2] at hp
        rcases List.mem_cons.mp hp with h | h
        · subst h; exact Or.inl rfl
        · exact Or.inr (List.mem_cons_of_mem _ h)
      · rw [if_neg h1, if_neg h2] at hp
        rcases List.mem_cons.mp hp with h | h
        · subst h; exact Or.inr (List.mem_cons_self _ _)
        · rcases ih p h with h3 | h3
          · exact Or.inl h3
          · exact Or.inr (List.mem_cons_of_mem _ h3)

lemma insertWaiter_sorted {W : Type} (id : Nat) (wk : W) :
    ∀ l : List (Nat × W), WaiterSorted l → WaiterSorted (insertWaiter id wk l) := by
  intro l
  induction l with
  | nil =>
    intro _
    simp [insertWaiter, WaiterSorted]
  | cons hd tl ih =>
    rcases hd with ⟨k, v⟩
    intro hs
    obtain ⟨hbound, htl⟩ := List.pairwise_cons.mp hs
    simp only [insertWaiter]
    by_cases h1 : id < k
    · rw [if_pos h1]
      refine List.pairwise_cons.mpr ⟨?_, hs⟩
      intro b hb
      rcases List.mem_cons.mp hb with h | h
      · subst h; exact h1
      · exact lt_trans h1 (hbound b h)
    · by_cases h2 : id = k
      · rw [if_neg h1, if_pos h2]
        subst h2
        exact List.pairwise_cons.mpr ⟨hbound, htl⟩
      · rw [if_neg h1, if_neg h2]
        refine List.pairwise_cons.mpr ⟨?_, ih htl⟩
        intro b hb
        rcases mem_insertWaiter id wk tl b hb with h | h
        · rw [h]; omega
        · exact hbound b h

/-- C5 counterexample: future id `1` already has a stale registry entry
`1 ↦ 5`; the blocking mutex is free, so the poll's fast path succeeds and
returns `Ready` — yet the entry for id `1` is still in the waiter map,
refuting "leaves no entry for that future in the waiter map". -/
theorem poll_ready_stale_entry_cex :
    ¬ ((AsyncMutexFuture.poll (W := Nat) ⟨[(1, 5)], 2⟩ { locked := false } 1 9).2.2 = true →
        lookupWaiter 1
          (AsyncMutexFuture.poll (W := Nat) ⟨[(1, 5)], 2⟩ { locked := false } 1 9).1.waiter =
          none) := by
  decide

/-- C5 (amended).  Each poll first retries the non-blocking fast path; if
the fast path succeeds the poll returns `Ready` with the guard (unit for the
semaphore) and leaves the waiter map unchanged — in particular a previously
registered entry for the future's id is not removed; if it fails the poll
stores the current wake handle under the future's id, overwriting any
previously stored handle for that id (so the stored handle is always the most
recently polled one, other ids' handles unaffected, well-formedness
preserved), and returns `Pending`. -/
theorem poll_contract_amended :
    ∀ (W : Type) (inner : AsyncInner W) (m : Mutex) (s : RWLock) (c id : Nat) (wk : W),
      (m.locked = false →
        AsyncMutexFuture.poll inner m id wk = (inner, { locked := true }, true)) ∧
      (m.locked = true →
        AsyncMutexFuture.poll inner m id wk =
          ({ inner with waiter := insertWaiter id wk inner.waiter }, { locked := true }, false)) ∧
      ((RWLock.try_write s).1.isSome →
        AsyncWriteLockFuture.poll inner s id wk = (inner, (RWLock.try_write s).2, true)) ∧
      ((RWLock.try_write s).1 = none →
        AsyncWriteLockFuture.poll inner s id wk =
          ({ inner with waiter := insertWaiter id wk inner.waiter }, (RWLock.try_write s).2,
            false)) ∧
      ((RWLock.try_read s).1.isSome →
        AsyncReadLockFuture.poll inner s id wk = (inner, (RWLock.try_read s).2, true)) ∧
      ((RWLock.try_read s).1 = none →
        AsyncReadLockFuture.poll inner s id wk =
          ({ inner with waiter := insertWaiter id wk inner.waiter }, (RWLock.try_read s).2,
            false)) ∧
      (0 < c → AsyncSemaphoreFuture.poll inner c id wk = (inner, c - 1, true)) ∧
      (c = 0 →
        AsyncSemaphoreFuture.poll inner c id wk =
          ({ inner with waiter := insertWaiter id wk inner.waiter }, c, false)) ∧
      lookupWaiter id (insertWaiter id wk inner.waiter) = some wk ∧
      (∀ j, j ≠ id →
        lookupWaiter j (insertWaiter id wk inner.waiter) = lookupWaiter j inner.waiter) ∧
      (WaiterSorted inner.waiter → WaiterSorted (insertWaiter id wk inner.waiter)) := by
  intro W inner m s c id wk
  refine ⟨?_, ?_, ?_, ?_, ?_, ?_, ?_, ?_,
    lookupWaiter_insert_self id wk inner.waiter,
    fun j hj => lookupWaiter_insert_ne id j wk hj inner.waiter,
    insertWaiter_sorted id wk inner.waiter⟩
  · intro hm
    simp [AsyncMutexFuture.poll, Mutex.try_lock, hm]
  · intro hm
    simp [AsyncMutexFuture.poll, Mutex.try_lock, hm]
  · intro h
    rcases hts : RWLock.try_write s with ⟨o, s'⟩
    rw [hts] at h
    cases o with
    | none => simp at h
    | some u => simp [AsyncWriteLockFuture.poll, hts]
  · intro h
    rcases hts : RWLock.try_write s with ⟨o, s'⟩
    rw [hts] at h
    cases o with
    | none => simp [AsyncWriteLockFuture.poll, hts]
    | some u => simp at h
  · intro h
    rcases hts : RWLock.try_read s with ⟨o, s'⟩
    rw [hts] at h
    cases o with
    | none => simp at h
    | some u => simp [AsyncReadLockFuture.poll, hts]
  · intro h
    rcases hts : RWLock.try_read s with ⟨o, s'⟩
    rw [hts] at h
    cases o with
    | none => simp [AsyncReadLockFuture.poll, hts]
    | some u => simp at h
  · intro hc
    simp [AsyncSemaphoreFuture.poll, Semaphore.try_down, hc]
  · intro hc
    subst hc
    simp [AsyncSemaphoreFuture.poll, Semaphore.try_down]

/-- Witness for C5: a successful poll on a free mutex leaves the registry
unchanged; a failed poll on a held mutex registers the wake handle. -/
theorem poll_contract_amended_witness :
    AsyncMutexFuture.poll (W := Nat) ⟨[], 0⟩ { locked := false } 0 3 =
      (⟨[], 0⟩, { locked := true }, true) ∧
    AsyncMutexFuture.poll (W := Nat) ⟨[], 0⟩ { locked := true } 0 3 =
      (⟨[(0, 3)], 0⟩, { locked := true }, false) := by
  have h1 := poll_contract_amended Nat ⟨[], 0⟩ { locked := false }
    { write_lock := false, read_locks := 0 } 1 0 3
  have h2 := poll_contract_amended Nat ⟨[], 0⟩ { locked := true }
    { write_lock := false, read_locks := 0 } 1 0 3
  exact ⟨h1.1 rfl, h2.2.1 rfl⟩

/-! ## C3: cancellation deregistration

None of the four acquire futures implements `Drop`, so abandoning a pending
future leaves its waiter entry registered; the next release removes and wakes
that stale entry, consuming its single wake-one-waiter action. -/

/-- C3 (code-bug evidence).  Registry `{0 ↦ 10, 1 ↦ 11}` where the future
with id `0` has been cancelled: the cancellation leaves the registry — and
the stale entry for id `0` — untouched; the subsequent guard destruction
removes and wakes stale id `0` (its only wake action), while the live waiter
`1` stays registered and receives no wake from this release. -/
theorem cancelled_future_swallows_wake :
    AsyncFuture.cancel (W := Nat) ⟨[(0, 10), (1, 11)], 2⟩ = ⟨[(0, 10), (1, 11)], 2⟩ ∧
    lookupWaiter 0 (AsyncFuture.cancel (W := Nat) ⟨[(0, 10), (1, 11)], 2⟩).waiter = some 10 ∧
    (AsyncMutexGuard.drop (W := Nat) (AsyncFuture.cancel ⟨[(0, 10), (1, 11)], 2⟩)
        { locked := true }).2.2 = [DropEvent.wake 0 10, DropEvent.release] ∧
    (AsyncMutexGuard.drop (W := Nat) (AsyncFuture.cancel ⟨[(0, 10), (1, 11)], 2⟩)
        { locked := true }).1.waiter = [(1, 11)] :=
  ⟨rfl, rfl, rfl, rfl⟩

/-! ## C1: mutual exclusion -/

/-- Invariant of the `Mutex` adapter: at most one guard outstanding, and the
lock flag is set exactly when one is. -/
def MutexInv (w : MutexWorld) : Prop :=
  w.guards ≤ 1 ∧ (w.mutex.locked = true ↔ w.guards = 1)

lemma mutexInv_step (w : MutexWorld) (op : MutexOp) (h : MutexInv w) :
    MutexInv (w.step op) := by
  obtain ⟨h1, h2⟩ := h
  cases op with
  | try_lock =>
    by_cases hl : w.mutex.locked = true
    · simp only [MutexWorld.step, Mutex.try_lock, if_pos hl, MutexInv]
      exact ⟨h1, by simp [h2.mp hl]⟩
    · simp only [MutexWorld.step, Mutex.try_lock, if_neg hl, MutexInv]
      have hg : w.guards = 0 := by
        have := mt h2.mpr hl
        omega
      exact ⟨by omega, by simp [hg]⟩
  | drop_guard =>
    by_cases hg : w.guards = 0
    · simp only [MutexWorld.step, if_pos hg]
      exact ⟨h1, h2⟩
    · simp only [MutexWorld.step, if_neg hg, MutexGuard.drop, MutexInv]
      refine ⟨by omega, ?_⟩
      simp only [Bool.false_eq_true, false_iff]
      omega

lemma mutexInv_run (ops : List MutexOp) : MutexInv (MutexWorld.run ops) := by
  have key : ∀ (l : List MutexOp) (w : MutexWorld),
      MutexInv w → MutexInv (l.foldl MutexWorld.step w) := by
    intro l
    induction l with
    | nil => intro w h; exact h
    | cons op rest ih => intro w h; exact ih _ (mutexInv_step w op h)
  refine key ops MutexWorld.init ?_
  simp only [MutexInv, MutexWorld.init]
  simp

/-- Invariant of the `RWLock` adapter while the read counter has not
wrapped: at most one write guard, the write flag set exactly when one is
outstanding, the `u32` read counter equal to the number of outstanding read
guards, and no read guard outstanding while the write guard is. -/
def RWInvAux (w : RWWorld) : Prop :=
  w.wguards ≤ 1 ∧ (w.lock.write_lock = true ↔ w.wguards = 1) ∧
  w.lock.read_locks = w.rguards ∧ (w.wguards = 1 → w.rguards = 0)

lemma wrap_sub_one {r : Nat} (h1 : 1 ≤ r) (h2 : r < U32_MOD) :
    (r + (U32_MOD - 1)) % U32_MOD = r - 1 := by
  have hpos := u32_mod_pos
  have h3 : r + (U32_MOD - 1) = (r - 1) + U32_MOD := by omega
  rw [h3, Nat.add_mod_right]
  exact Nat.mod_eq_of_lt (by omega)

lemma rwInv_step (w : RWWorld) (op : RWOp) (h : RWInvAux w)
    (hb : w.rguards + 1 < U32_MOD) :
    RWInvAux (w.step op) ∧ (w.step op).rguards ≤ w.rguards + 1 := by
  obtain ⟨⟨wl, rl⟩, wg, rg⟩ := w
  obtain ⟨h1, h2, h3, h4⟩ := h
  dsimp only at h1 h2 h3 h4 hb
  cases op with
  | try_write =>
    by_cases hrl : rl > 0
    · simp only [RWWorld.step, RWLock.try_write, RWInvAux, if_pos hrl]
      exact ⟨⟨h1, h2, h3, h4⟩, by omega⟩
    · by_cases hwl : wl = true
      · simp only [RWWorld.step, RWLock.try_write, RWInvAux, if_neg hrl, if_pos hwl]
        exact ⟨⟨h1, by simp [hwl, h2.mp hwl], h3, h4⟩, by omega⟩
      · simp only [RWWorld.step, RWLock.try_write, RWInvAux, if_neg hrl, if_neg hwl]
        have hg : wg = 0 := by
          have := mt h2.mpr hwl
          omega
        have hr0 : rg = 0 := by omega
        exact ⟨⟨by omega, by simp [hg], h3, fun _ => hr0⟩, by omega⟩
  | try_read =>
    by_cases hwl : wl = true
    · simp only [RWWorld.step, RWLock.try_read, RWInvAux, if_pos hwl]
      exact ⟨⟨h1, h2, h3, h4⟩, by omega⟩
    · simp only [RWWorld.step, RWLock.try_read, RWInvAux, if_neg hwl]
      have hg : wg = 0 := by
        have := mt h2.mpr hwl
        omega
      have hmod : (rl + 1) % U32_MOD = rg + 1 := by
        rw [h3]
        exact Nat.mod_eq_of_lt hb
      exact ⟨⟨by omega, by simpa [hg] using h2, hmod, by omega⟩, by omega⟩
  | drop_write =>
    by_cases hg : wg = 0
    · simp only [RWWorld.step, RWInvAux, if_pos hg]
      exact ⟨⟨h1, h2, h3, h4⟩, by omega⟩
    · simp only [RWWorld.step, RWInvAux, if_neg hg, WriteLockGuard.drop]
      refine ⟨⟨by omega, ?_, h3, by omega⟩, by omega⟩
      simp only [Bool.false_eq_true, false_iff]
      omega
  | drop_read =>
    by_cases hg : rg = 0
    · simp only [RWWorld.step, RWInvAux, if_pos hg]
      exact ⟨⟨h1, h2, h3, h4⟩, by omega⟩
    · simp only [RWWorld.step, RWInvAux, if_neg hg, ReadLockGuard.drop]
      have hge : 1 ≤ rl := by omega
      have hlt : rl < U32_MOD := by omega
      have hmod : (rl + (U32_MOD - 1)) % U32_MOD = rg - 1 := by
        rw [wrap_sub_one hge hlt, h3]
      exact ⟨⟨h1, h2, hmod, fun hw1 => absurd (h4 hw1) hg⟩, by omega⟩

lemma rwInv_foldl :
    ∀ (ops : List RWOp) (w : RWWorld), RWInvAux w → w.rguards + ops.length < U32_MOD →
      RWInvAux (ops.foldl RWWorld.step w) ∧
      (ops.foldl RWWorld.step w).rguards ≤ w.rguards + ops.length := by
  intro ops
  induction ops with
  | nil =>
    intro w h hb
    exact ⟨h, by simp⟩
  | cons op rest ih =>
    intro w h hb
    simp only [List.length_cons] at hb
    obtain ⟨hinv, hle⟩ := rwInv_step w op h (by omega)
    obtain ⟨hi, hl2⟩ := ih (RWWorld.step w op) hinv (by omega)
    simp only [List.foldl_cons, List.length_cons]
    exact ⟨hi, by omega⟩

lemma rwInv_run (ops : List RWOp) (h : ops.length < U32_MOD) :
    RWInvAux (RWWorld.run ops) := by
  have hinit : RWInvAux RWWorld.init := by
    refine ⟨?_, ?_, rfl, ?_⟩
    · show (0 : Nat) ≤ 1
      omega
    · simp [RWWorld.init]
    · show (0 : Nat) = 1 → (0 : Nat) = 0
      omega
  exact (rwInv_foldl ops RWWorld.init hinit (by simpa [RWWorld.init] using h)).1

/-- Invariant of the `RWLock` adapter that holds along every trace, with no
length bound: at most one write guard outstanding, and the write flag is set
exactly when one is. -/
def RWWriteInv (w : RWWorld) : Prop :=
  w.wguards ≤ 1 ∧ (w.lock.write_lock = true ↔ w.wguards = 1)

lemma rwWriteInv_step (w : RWWorld) (op : RWOp) (h : RWWriteInv w) :
    RWWriteInv (w.step op) := by
  obtain ⟨⟨wl, rl⟩, wg, rg⟩ := w
  obtain ⟨h1, h2⟩ := h
  dsimp only at h1 h2
  cases op with
  | try_write =>
    by_cases hrl : rl > 0
    · simp only [RWWorld.step, RWLock.try_write, RWWriteInv, if_pos hrl]
      exact ⟨h1, h2⟩
    · by_cases hwl : wl = true
      · simp only [RWWorld.step, RWLock.try_write, RWWriteInv, if_neg hrl, if_pos hwl]
        exact ⟨h1, by simp [hwl, h2.mp hwl]⟩
      · simp only [RWWorld.step, RWLock.try_write, RWWriteInv, if_neg hrl, if_neg hwl]
        have hg : wg = 0 := by
          have := mt h2.mpr hwl
          omega
        exact ⟨by omega, by simp [hg]⟩
  | try_read =>
    by_cases hwl : wl = true
    · simp only [RWWorld.step, RWLock.try_read, RWWriteInv, if_pos hwl]
      exact ⟨h1, h2⟩
    · simp only [RWWorld.step, RWLock.try_read, RWWriteInv, if_neg hwl]
      exact ⟨h1, h2⟩
  | drop_write =>
    by_cases hg : wg = 0
    · simp only [RWWorld.step, if_pos hg]
      exact ⟨h1, h2⟩
    · simp only [RWWorld.step, RWWriteInv, if_neg hg, WriteLockGuard.drop]
      refine ⟨by omega, ?_⟩
      simp only [Bool.false_eq_true, false_iff]
      omega
  | drop_read =>
    by_cases hg : rg = 0
    · simp only [RWWorld.step, if_pos hg]
      exact ⟨h1, h2⟩
    · simp only [RWWorld.step, RWWriteInv, if_neg hg, ReadLockGuard.drop]
      exact ⟨h1, h2⟩

lemma rwWriteInv_run (ops : List RWOp) : RWWriteInv (RWWorld.run ops) := by
  have key : ∀ (l : List RWOp) (w : RWWorld),
      RWWriteInv w → RWWriteInv (l.foldl RWWorld.step w) := by
    intro l
    induction l with
    | nil => intro w h; exact h
    | cons op rest ih => intro w h; exact ih _ (rwWriteInv_step w op h)
  refine key ops RWWorld.init ⟨?_, ?_⟩
  · show (0 : Nat) ≤ 1
    omega
  · simp [RWWorld.init]

lemma run_reads_nowrap :
    ∀ (k rl rg : Nat), rl + k < U32_MOD →
      List.foldl RWWorld.step ⟨⟨false, rl⟩, 0, rg⟩ (List.replicate k RWOp.try_read) =
        ⟨⟨false, rl + k⟩, 0, rg + k⟩ := by
  intro k
  induction k with
  | zero =>
    intro rl rg h
    simp
  | succ m ih =>
    intro rl rg h
    have hstep : RWWorld.step ⟨⟨false, rl⟩, 0, rg⟩ RWOp.try_read =
        ⟨⟨false, (rl + 1) % U32_MOD⟩, 0, rg + 1⟩ := rfl
    rw [List.replicate_succ, List.foldl_cons, hstep,
      Nat.mod_eq_of_lt (show rl + 1 < U32_MOD by omega),
      ih (rl + 1) (rg + 1) (by omega),
      show rl + 1 + m = rl + (m + 1) from by omega,
      show rg + 1 + m = rg + (m + 1) from by omega]

/-- After `2 ^ 32 - 1` successful `try_read`s and one more, the `u32`
`read_locks` counter has wrapped back to `0` while `2 ^ 32` read guards are
outstanding. -/
lemma run_reads_wrap :
    RWWorld.run (List.replicate (U32_MOD - 1) RWOp.try_read ++ [RWOp.try_read]) =
      ⟨⟨false, 0⟩, 0, U32_MOD⟩ := by
  have hM : 1 ≤ U32_MOD := by norm_num [U32_MOD]
  show List.foldl RWWorld.step RWWorld.init
      (List.replicate (U32_MOD - 1) RWOp.try_read ++ [RWOp.try_read]) =
    ⟨⟨false, 0⟩, 0, U32_MOD⟩
  rw [List.foldl_append,
    show RWWorld.init = ⟨⟨false, 0⟩, 0, 0⟩ from rfl,
    run_reads_nowrap (U32_MOD - 1) 0 0 (by omega),
    List.foldl_cons, List.foldl_nil,
    show (0 : Nat) + (U32_MOD - 1) = U32_MOD - 1 from by omega]
  have hstep : RWWorld.step ⟨⟨false, U32_MOD - 1⟩, 0, U32_MOD - 1⟩ RWOp.try_read =
      ⟨⟨false, (U32_MOD - 1 + 1) % U32_MOD⟩, 0, U32_MOD - 1 + 1⟩ := rfl
  rw [hstep, show U32_MOD - 1 + 1 = U32_MOD from by omega, Nat.mod_self]

/-- C1 counterexample: along the trace that acquires `2 ^ 32` read guards,
the `u32` `read_locks` counter wraps to `0`, and `RWLock::try_write` then
succeeds even though `2 ^ 32` read guards are outstanding — refuting
"`RWLock::try_write` returns `None` whenever any guard is outstanding" (and
the read/write coexistence clause) for unrestricted operation sequences. -/
theorem rw_read_wrap_try_write_cex :
    ¬ (1 ≤ (RWWorld.run (List.replicate (U32_MOD - 1) RWOp.try_read ++ [RWOp.try_read])).wguards +
          (RWWorld.run (List.replicate (U32_MOD - 1) RWOp.try_read ++ [RWOp.try_read])).rguards →
        (RWLock.try_write
            (RWWorld.run (List.replicate (U32_MOD - 1) RWOp.try_read ++ [RWOp.try_read])).lock).1 =
          none) := by
  rw [run_reads_wrap]
  intro hcl
  have h2 := hcl (show (1 : Nat) ≤ 0 + U32_MOD from by norm_num [U32_MOD])
  have h3 : (RWLock.try_write ((⟨⟨false, 0⟩, 0, U32_MOD⟩ : RWWorld).lock)).1 = some () := rfl
  exact Option.noConfusion (h3.symm.trans h2)

/-- C1 (amended).  For every sequence of operations on one adapter, at most
one exclusive (write/mutex) guard is outstanding at any instant, and
`Mutex::try_lock` returns `None` whenever a `MutexGuard` is outstanding —
with no restriction on the trace.  For the `RWLock`, along any sequence of
fewer than `2 ^ 32` operations (so that the `u32` `read_locks` counter cannot
wrap), outstanding read guards and an outstanding write guard never coexist,
and `RWLock::try_write` returns `None` whenever any guard is outstanding;
once `2 ^ 32` read guards are simultaneously outstanding the counter wraps
and `try_write` can succeed (see the counterexample). -/
theorem mutex_rwlock_mutual_exclusion_amended (mops : List MutexOp) (rops : List RWOp) :
    (MutexWorld.run mops).guards ≤ 1 ∧
    (1 ≤ (MutexWorld.run mops).guards →
      (Mutex.try_lock (MutexWorld.run mops).mutex).1 = none) ∧
    (RWWorld.run rops).wguards ≤ 1 ∧
    (rops.length < U32_MOD →
      ((RWWorld.run rops).wguards = 1 → (RWWorld.run rops).rguards = 0) ∧
      (1 ≤ (RWWorld.run rops).wguards + (RWWorld.run rops).rguards →
        (RWLock.try_write (RWWorld.run rops).lock).1 = none)) := by
  obtain ⟨m1, m2⟩ := mutexInv_run mops
  obtain ⟨w1, -⟩ := rwWriteInv_run rops
  refine ⟨m1, ?_, w1, ?_⟩
  · intro hg
    have hl : (MutexWorld.run mops).mutex.locked = true := m2.mpr (by omega)
    simp [Mutex.try_lock, hl]
  · intro h
    obtain ⟨r1, r2, r3, r4⟩ := rwInv_run rops h
    refine ⟨r4, ?_⟩
    intro hg
    by_cases hr : (RWWorld.run rops).rguards = 0
    · have hw : (RWWorld.run rops).wguards = 1 := by omega
      have hwl := r2.mpr hw
      have hrl : (RWWorld.run rops).lock.read_locks = 0 := by rw [r3, hr]
      simp [RWLock.try_write, hrl, hwl]
    · have hrl : (RWWorld.run rops).lock.read_locks > 0 := by
        rw [r3]
        omega
      simp [RWLock.try_write, hrl]

/-- Witness for C1: a trace taking one mutex guard (its `try_lock` then
refused), and a trace taking one read guard (its `try_write` then refused). -/
theorem mutex_rwlock_mutual_exclusion_amended_witness :
    (MutexWorld.run [MutexOp.try_lock]).guards ≤ 1 ∧
    (Mutex.try_lock (MutexWorld.run [MutexOp.try_lock]).mutex).1 = none ∧
    (RWWorld.run [RWOp.try_read]).wguards ≤ 1 ∧
    ((RWWorld.run [RWOp.try_read]).wguards = 1 → (RWWorld.run [RWOp.try_read]).rguards = 0) ∧
    (RWLock.try_write (RWWorld.run [RWOp.try_read]).lock).1 = none := by
  have h := mutex_rwlock_mutual_exclusion_amended [MutexOp.try_lock] [RWOp.try_read]
  have hcond := h.2.2.2 (by norm_num [U32_MOD])
  refine ⟨h.1, h.2.1 ?_, h.2.2.1, hcond.1, hcond.2 ?_⟩
  · have hrun : MutexWorld.run [MutexOp.try_lock] = ⟨⟨true⟩, 1⟩ := by
      simp [MutexWorld.run, MutexWorld.init, MutexWorld.step, Mutex.try_lock]
    rw [hrun]
  · have hrun : RWWorld.run [RWOp.try_read] = ⟨⟨false, 1⟩, 0, 1⟩ := by
      simp [RWWorld.run, RWWorld.init, RWWorld.step, RWLock.try_read, U32_MOD]
    rw [hrun]
    show (1 : Nat) ≤ 0 + 1
    omega

end RuspiroLock
